import Mathlib

/-!
Verification of `src/app/params.py` (py-copy-helper).

The module validates JSON-like documents against three fixed jsonschema
schemas and wraps the validated documents in thin read-only views
(`Properties`, `Messages`, `Data`, `DataGroup`, `DataItem`).

We shallowly embed:
* JSON values (`Json`) as Python would hold them (dicts as ordered
  association lists, lists, strings, integers, booleans, null);
* the subset of jsonschema used by the three schema constants
  (`Schema` / `validate`), fail-fast in the keyword order the schema
  dictionaries declare (`type`, then `properties`/`items`, then
  `required`, `additionalProperties` / `minItems`, `minimum`, `enum`);
* `_parse_json`, which formats the raised `PropertiesError` message from
  the violation message and the structural path;
* the view classes, with Python dict/list access modelled by
  `Except PyErr` (KeyError / IndexError / TypeError).
-/

namespace Params

/-- A JSON-like Python value: dicts keep insertion order, so objects are
association lists. -/
inductive Json where
  | null : Json
  | bool : Bool → Json
  | int : Int → Json
  | str : String → Json
  | arr : List Json → Json
  | obj : List (String × Json) → Json
deriving Repr

/-- One step of a structural path: an object key or an array index
(`error.path` elements in jsonschema). -/
inductive Step where
  | key : String → Step
  | idx : Nat → Step
deriving Repr, DecidableEq

/-- A single schema violation: the matcher message and the path from the
document root to the offending node. -/
structure VErr where
  message : String
  path : List Step
deriving Repr, DecidableEq

/-- First-match association-list lookup, i.e. Python `d[k]` / `k in d` on
a dict with string keys. -/
def jlookup {α : Type} (k : String) : List (String × α) → Option α
  | [] => none
  | (a, v) :: rest => if a = k then some v else jlookup k rest

mutual

/-- Python `repr` of a JSON value, as it appears in jsonschema messages. -/
def pyRepr : Json → String
  | .null => "None"
  | .bool true => "True"
  | .bool false => "False"
  | .int n => toString n
  | .str s => "'" ++ s ++ "'"
  | .arr xs => "[" ++ pyReprList xs ++ "]"
  | .obj kvs => "\x7b" ++ pyReprKVs kvs ++ "\x7d"

def pyReprList : List Json → String
  | [] => ""
  | [x] => pyRepr x
  | x :: rest => pyRepr x ++ ", " ++ pyReprList rest

def pyReprKVs : List (String × Json) → String
  | [] => ""
  | [(k, v)] => "'" ++ k ++ "': " ++ pyRepr v
  | (k, v) :: rest => "'" ++ k ++ "': " ++ pyRepr v ++ ", " ++ pyReprKVs rest

end

/-- The subset of jsonschema used by the three schema constants in
`params.py`: every object schema there carries `properties`, `required`
and `additionalProperties: False`; every array schema carries `items` and
`minItems`; every integer schema carries `minimum`; string schemas
optionally carry `enum`. -/
inductive Schema where
  | object : List (String × Schema) → List String → Schema
  | array : Schema → Nat → Schema
  | integer : Int → Schema
  | string : Schema
  | strEnum : List String → Schema
deriving Repr

/-- jsonschema type-error message. -/
def typeErrMsg (j : Json) (ty : String) : String :=
  pyRepr j ++ " is not of type '" ++ ty ++ "'"

/-- Keys of an instance object that the schema's `properties` does not
declare (`additionalProperties: False` violations), in instance order. -/
def extraKeys (props : List (String × Schema)) : List (String × Json) → List String
  | [] => []
  | (k, _) :: rest =>
    if (jlookup k props).isSome then extraKeys props rest
    else k :: extraKeys props rest

/-- jsonschema `additionalProperties: False` message. -/
def addlErrMsg (extras : List String) : String :=
  let quoted := extras.map (fun k => "'" ++ k ++ "'")
  let verb := if extras.length = 1 then " was unexpected)" else " were unexpected)"
  "Additional properties are not allowed (" ++ String.intercalate ", " quoted ++ verb

/-- First missing required key, in `required`-list order. -/
def firstMissing (kvs : List (String × Json)) : List String → Option String
  | [] => none
  | r :: rest => if (jlookup r kvs).isSome then firstMissing kvs rest else some r

/-- The `items` keyword: apply the element validator to each element,
prefixing its index onto the nested path; first violation wins. -/
def validateItemsWith (f : Json → Option VErr) : List Json → Nat → Option VErr
  | [], _ => none
  | x :: rest, i =>
    ((match f x with
      | some e => some ⟨e.message, .idx i :: e.path⟩
      | none => none : Option VErr)).orElse fun _ => validateItemsWith f rest (i + 1)

mutual

/-- Fail-fast structural validation: `none` means the document conforms;
`some e` is the first violation in the keyword order the schema
dictionaries in `params.py` declare. Paths in the result are relative to
`j`. -/
def validate : Schema → Json → Option VErr
  | .object props required, j =>
    match j with
    | .obj kvs =>
      (validateProps props kvs).orElse fun _ =>
        ((match firstMissing kvs required with
          | some r => some ⟨"'" ++ r ++ "' is a required property", []⟩
          | none => none : Option VErr)).orElse fun _ =>
          match extraKeys props kvs with
          | [] => none
          | extras => some ⟨addlErrMsg extras, []⟩
    | _ => some ⟨typeErrMsg j "object", []⟩
  | .array items minItems, j =>
    match j with
    | .arr xs =>
      (validateItemsWith (fun x => validate items x) xs 0).orElse fun _ =>
        if xs.length < minItems then some ⟨pyRepr (.arr xs) ++ " is too short", []⟩
        else none
    | _ => some ⟨typeErrMsg j "array", []⟩
  | .integer minimum, j =>
    match j with
    | .int n =>
      if n < minimum then some ⟨toString n ++ " is less than the minimum of " ++ toString minimum, []⟩
      else none
    | _ => some ⟨typeErrMsg j "integer", []⟩
  | .string, j =>
    match j with
    | .str _ => none
    | _ => some ⟨typeErrMsg j "string", []⟩
  | .strEnum allowed, j =>
    match j with
    | .str s =>
      if s ∈ allowed then none
      else some ⟨pyRepr (.str s) ++ " is not one of [" ++
        String.intercalate ", " (allowed.map (fun a => "'" ++ a ++ "'")) ++ "]", []⟩
    | _ => some ⟨typeErrMsg j "string", []⟩
termination_by structural s => s

/-- The `properties` keyword: for each declared property present in the
instance, validate its value, prefixing the key onto the nested path. -/
def validateProps : List (String × Schema) → List (String × Json) → Option VErr
  | [], _ => none
  | (name, sub) :: rest, kvs =>
    match jlookup name kvs with
    | some v =>
      ((match validate sub v with
        | some e => some ⟨e.message, .key name :: e.path⟩
        | none => none : Option VErr)).orElse fun _ => validateProps rest kvs
    | none => validateProps rest kvs
termination_by structural l => l

end

/-- The `rows` subschema of `Properties.__props_schema`. -/
def rows_schema : Schema :=
  .object
    [("height", .integer 1),
     ("spacing", .integer 1),
     ("critical_value_size", .integer 1)]
    ["height", "spacing"]

/-- The `font` subschema of `Properties.__props_schema`. -/
def font_schema : Schema := .object [("size", .integer 1)] ["size"]

/-- The `mode` subschema of `Properties.__props_schema`. -/
def mode_schema : Schema := .strEnum ["columns", "rows"]

/-- Transcription of `Properties.__props_schema` from `params.py`. -/
def props_schema : Schema :=
  .object
    [("rows", rows_schema), ("font", font_schema), ("mode", mode_schema)]
    ["rows", "font", "mode"]

/-- Transcription of `Messages.__msgs_schema` from `params.py`. -/
def msgs_schema : Schema :=
  .object [("main_window_caption", .string)] ["main_window_caption"]

/-- The schema of one data item (`name`/`value`), the `items` of the inner
`data` array in `Data.__data_schema`. -/
def item_schema : Schema :=
  .object [("name", .string), ("value", .string)] ["name", "value"]

/-- The schema of one group (the `items` of `Data.__data_schema`). -/
def group_schema : Schema :=
  .object [("name", .string), ("data", .array item_schema 1)] ["name", "data"]

/-- Transcription of `Data.__data_schema` from `params.py`. -/
def data_schema : Schema := .array group_schema 1

/-- The lambda in `_parse_json`: a string step renders as `"key"`, an
integer step as the bare number. -/
def renderStep : Step → String
  | .key s => "\"" ++ s ++ "\""
  | .idx n => toString n

/-- Rendering of the whole path in `_parse_json`: the rendered steps
joined by `][` between an opening and a closing bracket. -/
def renderPath (path : List Step) : String :=
  "[" ++ String.intercalate "][" (path.map renderStep) ++ "]"

/-- Model of `_parse_json`: on success returns the document unchanged; on the first
violation raises `PropertiesError` (modelled as `Except.error`) whose
message is the violation message followed by the rendered path. -/
def parse_json (data : Json) (schema : Schema) : Except String Json :=
  match validate schema data with
  | none => .ok data
  | some e => .error (e.message ++ " (path: " ++ renderPath e.path ++ ")")

/-- Errors Python raises during attribute/index access on the views. -/
inductive PyErr where
  | keyError : String → PyErr
  | indexError : PyErr
  | typeError : PyErr
deriving Repr, DecidableEq

/-- Python `j[k]` for a string key: KeyError when a dict lacks the key,
TypeError when `j` is not subscriptable by strings. -/
def pyGet (j : Json) (k : String) : Except PyErr Json :=
  match j with
  | .obj kvs =>
    match jlookup k kvs with
    | some v => .ok v
    | none => .error (.keyError k)
  | _ => .error .typeError

/-- Python sequence indexing `xs[i]`: a negative index counts from the
end; out of range raises IndexError. -/
def pyListIndex {α : Type} (xs : List α) (i : Int) : Except PyErr α :=
  let j := if i < 0 then i + xs.length else i
  if h : 0 ≤ j ∧ j.toNat < xs.length then .ok (xs.get ⟨j.toNat, h.2⟩)
  else .error .indexError

/-- Python `j[i]` for an integer index. An integer key on a dict is a
KeyError (the schemas only produce string keys); non-subscriptable values
raise TypeError. -/
def pyIndex (j : Json) (i : Int) : Except PyErr Json :=
  match j with
  | .arr xs => pyListIndex xs i
  | .str s => (pyListIndex s.toList i).map (fun c => .str (String.singleton c))
  | .obj _ => .error (.keyError (toString i))
  | _ => .error .typeError

/-- Python `len(j)`: dict → number of keys, list/string → length,
others unsized (TypeError). -/
def pyLen (j : Json) : Except PyErr Nat :=
  match j with
  | .obj kvs => .ok kvs.length
  | .arr xs => .ok xs.length
  | .str s => .ok s.length
  | _ => .error .typeError

/-- Python `iter(j)` flattened to the list of values produced: list →
elements, dict → keys, string → characters; others raise TypeError. -/
def pyIterJson (j : Json) : Except PyErr (List Json) :=
  match j with
  | .arr xs => .ok xs
  | .obj kvs => .ok (kvs.map (fun kv => .str kv.1))
  | .str s => .ok (s.toList.map (fun c => .str (String.singleton c)))
  | _ => .error .typeError

/-- The object `map(f, xs)` returns: a one-shot iterator holding the not
yet consumed tail. `Data.__iter__` / `DataGroup.__iter__` build a fresh
one on every call. -/
structure PyMapIter (α : Type) where
  remaining : List α
deriving Repr, DecidableEq

/-- Model of `next(it)`: the next element and the advanced iterator; `none` when
exhausted. Advancing returns a new iterator value and never touches the
underlying document. -/
def PyMapIter.next {α : Type} (it : PyMapIter α) : Option (α × PyMapIter α) :=
  match it.remaining with
  | [] => none
  | x :: rest => some (x, ⟨rest⟩)

/-- Full traversal of an iterator: the sequence of elements `next` will
yield until exhaustion. -/
def PyMapIter.toList {α : Type} (it : PyMapIter α) : List α := it.remaining

/-- Consume `k` elements of an iterator (then discard the elements). -/
def PyMapIter.consume {α : Type} (k : Nat) (it : PyMapIter α) : PyMapIter α :=
  ⟨it.remaining.drop k⟩

/-- The class `Properties`: holds `self.__props_data`. -/
structure Properties where
  props_data : Json

/-- Model of `Properties.__init__`: validates against `__props_schema` via
`_parse_json` and stores the result. -/
def Properties.init (data : Json) : Except String Properties :=
  (parse_json data props_schema).map Properties.mk

/-- Accessor `row_height`: `self.__props_data['rows']['height']`. -/
def Properties.row_height (p : Properties) : Except PyErr Json :=
  (pyGet p.props_data "rows").bind (fun r => pyGet r "height")

/-- Accessor `rows_spacing`: `self.__props_data['rows']['spacing']`. -/
def Properties.rows_spacing (p : Properties) : Except PyErr Json :=
  (pyGet p.props_data "rows").bind (fun r => pyGet r "spacing")

/-- Accessor `critical_value_size`: `self.__props_data['rows']['critical_value_size']`. -/
def Properties.critical_value_size (p : Properties) : Except PyErr Json :=
  (pyGet p.props_data "rows").bind (fun r => pyGet r "critical_value_size")

/-- Accessor `font_size`: `self.__props_data['font']['size']`. -/
def Properties.font_size (p : Properties) : Except PyErr Json :=
  (pyGet p.props_data "font").bind (fun f => pyGet f "size")

/-- Accessor `mode`: `self.__props_data['mode']`. -/
def Properties.mode (p : Properties) : Except PyErr Json :=
  pyGet p.props_data "mode"

/-- The class `Messages`: holds `self.__msgs_data`. -/
structure Messages where
  msgs_data : Json

/-- Model of `Messages.__init__`: validates against `__msgs_schema` and stores. -/
def Messages.init (data : Json) : Except String Messages :=
  (parse_json data msgs_schema).map Messages.mk

/-- Model of `Messages.__getitem__`. -/
def Messages.getitem (m : Messages) (key : String) : Except PyErr Json :=
  pyGet m.msgs_data key

/-- Accessor `main_window_caption`, defined as `self['main_window_caption']`. -/
def Messages.main_window_caption (m : Messages) : Except PyErr Json :=
  m.getitem "main_window_caption"

/-- The class `DataItem`: `__init__` stores the fragment without validation. -/
structure DataItem where
  data : Json
deriving Repr

/-- Accessor `name`: `self.__data['name']`. -/
def DataItem.name (it : DataItem) : Except PyErr Json := pyGet it.data "name"

/-- Accessor `value`: `self.__data['value']`. -/
def DataItem.value (it : DataItem) : Except PyErr Json := pyGet it.data "value"

/-- The class `DataGroup`: `__init__` stores the fragment without validation. -/
structure DataGroup where
  data : Json
deriving Repr

/-- Accessor `name`: `self.__data['name']`. -/
def DataGroup.name (g : DataGroup) : Except PyErr Json := pyGet g.data "name"

/-- Model of `DataGroup.__getitem__`: `DataItem(self.__data['data'][index])`. -/
def DataGroup.getitem (g : DataGroup) (index : Int) : Except PyErr DataItem :=
  (pyGet g.data "data").bind (fun l => (pyIndex l index).map DataItem.mk)

/-- Model of `DataGroup.__iter__`: `map(lambda item: DataItem(item), self.__data['data'])`,
a fresh iterator over fresh `DataItem` wrappers. -/
def DataGroup.iter (g : DataGroup) : Except PyErr (PyMapIter DataItem) :=
  (pyGet g.data "data").bind
    (fun l => (pyIterJson l).map (fun xs => ⟨xs.map DataItem.mk⟩))

/-- Model of `DataGroup.__len__`: `len(self.__data)` — the size of the backing
record dict, not of its `data` item list. -/
def DataGroup.len (g : DataGroup) : Except PyErr Nat := pyLen g.data

/-- The class `Data`: holds `self.__data`, the validated document. -/
structure Data where
  data : Json

/-- Model of `Data.__init__`: validates against `__data_schema` and stores. -/
def Data.init (d : Json) : Except String Data :=
  (parse_json d data_schema).map Data.mk

/-- Model of `Data.__getitem__`: `DataGroup(self.__data[index])`. -/
def Data.getitem (d : Data) (index : Int) : Except PyErr DataGroup :=
  (pyIndex d.data index).map DataGroup.mk

/-- Model of `Data.__iter__`: `map(lambda item: DataGroup(item), self.__data)`,
a fresh iterator built from the unchanged backing list on every call. -/
def Data.iter (d : Data) : Except PyErr (PyMapIter DataGroup) :=
  (pyIterJson d.data).map (fun xs => ⟨xs.map DataGroup.mk⟩)

/-- Model of `Data.__len__`: `len(self.__data)`. -/
def Data.len (d : Data) : Except PyErr Nat := pyLen d.data

/-- Keys of an object association list, in insertion order. -/
def keysOf {α : Type} (kvs : List (String × α)) : List String := kvs.map Prod.fst

/-- Replace the first binding of `name` (updating an existing key of a
Python dict keeps its position). -/
def replaceFirst (name : String) (f : Json → Json) :
    List (String × Json) → List (String × Json)
  | [] => []
  | (a, v) :: rest =>
    if a = name then (a, f v) :: rest else (a, v) :: replaceFirst name f rest

/-- The document node a structural path leads to. -/
def getAt : Json → List Step → Option Json
  | j, [] => some j
  | .obj kvs, .key n :: rest =>
    match jlookup n kvs with
    | some v => getAt v rest
    | none => none
  | .arr xs, .idx i :: rest =>
    match xs[i]? with
    | some x => getAt x rest
    | none => none
  | _, _ :: _ => none

/-- Replace the document node at a structural path; the document is
returned unchanged when the path does not exist in it. -/
def setAt : Json → List Step → Json → Json
  | _, [], new => new
  | .obj kvs, .key n :: rest, new =>
    .obj (replaceFirst n (fun old => setAt old rest new) kvs)
  | .arr xs, .idx i :: rest, new =>
    .arr (match xs[i]? with
          | some x => xs.set i (setAt x rest new)
          | none => xs)
  | j, _ :: _, _ => j

/-- The subschema a structural path leads to: an object key steps through
`properties`, an array index through `items`. -/
def schemaAt : Schema → List Step → Option Schema
  | s, [] => some s
  | .object props _, .key n :: rest =>
    match jlookup n props with
    | some sub => schemaAt sub rest
    | none => none
  | .array items _, .idx _ :: rest => schemaAt items rest
  | _, _ :: _ => none

/-- No key occurs twice. -/
def nodupKeys : List String → Bool
  | [] => true
  | k :: rest => !rest.contains k && nodupKeys rest

mutual

/-- A document Python could actually hold: no dict in it binds the same
key twice. -/
def wfJson : Json → Bool
  | .null => true
  | .bool _ => true
  | .int _ => true
  | .str _ => true
  | .arr xs => wfJsonList xs
  | .obj kvs => nodupKeys (keysOf kvs) && wfJsonKVs kvs
termination_by structural j => j

def wfJsonList : List Json → Bool
  | [] => true
  | x :: rest => wfJson x && wfJsonList rest
termination_by structural l => l

def wfJsonKVs : List (String × Json) → Bool
  | [] => true
  | (_, v) :: rest => wfJson v && wfJsonKVs rest
termination_by structural l => l

end

/-- The valid `Properties` document of the spec scenarios, parametrised
by its four scalar fields (`critical_value_size` absent). -/
def props_doc_min (h sp fs : Int) (m : String) : Json :=
  .obj [("rows", .obj [("height", .int h), ("spacing", .int sp)]),
        ("font", .obj [("size", .int fs)]),
        ("mode", .str m)]

/-- Scenario document: `{"rows":{"height":10,"spacing":2},"font":{"size":12},"mode":"rows"}`. -/
def props_doc_ok : Json := props_doc_min 10 2 12 "rows"

/-- Scenario document with `height` 0 (below the minimum of 1). -/
def props_doc_height0 : Json := props_doc_min 0 2 12 "rows"

/-- A document missing the required top-level key `mode`. -/
def props_doc_no_mode : Json :=
  .obj [("rows", .obj [("height", .int 10), ("spacing", .int 2)]),
        ("font", .obj [("size", .int 12)])]

/-- A valid document plus one undeclared top-level key. -/
def props_doc_extra : Json :=
  .obj [("rows", .obj [("height", .int 10), ("spacing", .int 2)]),
        ("font", .obj [("size", .int 12)]),
        ("mode", .str "rows"),
        ("extra", .int 1)]

/-- A document whose `height` is a string instead of an integer. -/
def props_doc_height_str : Json :=
  .obj [("rows", .obj [("height", .str "10"), ("spacing", .int 2)]),
        ("font", .obj [("size", .int 12)]),
        ("mode", .str "rows")]

/-- A document whose `mode` is outside the enum. -/
def props_doc_bad_mode : Json := props_doc_min 10 2 12 "diag"

/-- Scenario document: `[{"name":"g1","data":[{"name":"a","value":"1"}]}]`. -/
def data_doc_g1 : Json :=
  .arr [.obj [("name", .str "g1"),
              ("data", .arr [.obj [("name", .str "a"), ("value", .str "1")]])]]

/-- A document with one group whose item array is empty. -/
def data_doc_empty_items : Json :=
  .arr [.obj [("name", .str "g"), ("data", .arr [])]]

lemma orElse_none_iff {α : Type} (o : Option α) (f : Unit → Option α) :
    o.orElse f = none ↔ o = none ∧ f () = none := by
  cases o <;> simp [Option.orElse]

lemma orElse_some_left {α : Type} {o : Option α} {e : α} (f : Unit → Option α)
    (h : o = some e) : o.orElse f = some e := by
  subst h; rfl

lemma orElse_none_left {α : Type} {o : Option α} (f : Unit → Option α)
    (h : o = none) : o.orElse f = f () := by
  subst h; rfl

lemma jlookup_eq_none {α : Type} {k : String} {l : List (String × α)} :
    jlookup k l = none ↔ k ∉ keysOf l := by
  induction l with
  | nil => simp [jlookup, keysOf]
  | cons kv rest ih =>
    obtain ⟨a, v⟩ := kv
    simp only [jlookup, keysOf, List.map_cons, List.mem_cons]
    by_cases h : a = k
    · subst h; simp
    · have h' : ¬ k = a := fun hk => h hk.symm
      simp [h, h', ih, keysOf]

lemma jlookup_mem {α : Type} {k : String} {l : List (String × α)} {v : α}
    (h : jlookup k l = some v) : (k, v) ∈ l := by
  induction l with
  | nil => simp [jlookup] at h
  | cons kv rest ih =>
    obtain ⟨a, w⟩ := kv
    by_cases ha : a = k
    · subst ha; simp [jlookup] at h; simp [h]
    · simp [jlookup, ha] at h
      exact List.mem_cons_of_mem _ (ih h)

lemma jlookup_append {α : Type} (k : String) (l1 l2 : List (String × α)) :
    jlookup k (l1 ++ l2) = (jlookup k l1).orElse (fun _ => jlookup k l2) := by
  induction l1 with
  | nil => simp [jlookup, Option.orElse]
  | cons kv rest ih =>
    obtain ⟨a, v⟩ := kv
    by_cases ha : a = k <;> simp [jlookup, ha, ih, Option.orElse]

lemma keysOf_replaceFirst (n : String) (f : Json → Json)
    (kvs : List (String × Json)) :
    keysOf (replaceFirst n f kvs) = keysOf kvs := by
  induction kvs with
  | nil => rfl
  | cons kv rest ih =>
    obtain ⟨a, v⟩ := kv
    by_cases ha : a = n <;> simp [replaceFirst, ha, keysOf, ih]
    · simpa [keysOf] using ih

lemma jlookup_replaceFirst_ne {a n : String} (f : Json → Json)
    (kvs : List (String × Json)) (h : a ≠ n) :
    jlookup a (replaceFirst n f kvs) = jlookup a kvs := by
  induction kvs with
  | nil => rfl
  | cons kv rest ih =>
    obtain ⟨b, v⟩ := kv
    have hna : ¬ n = a := fun x => h x.symm
    by_cases hb : b = n
    · have hba : ¬ b = a := fun hba => h (hba ▸ hb)
      simp [replaceFirst, hb, jlookup, hba, hna]
    · by_cases hba : b = a
      · simp [replaceFirst, hb, jlookup, hba, hna, h]
      · simp [replaceFirst, hb, jlookup, hba, ih]

lemma jlookup_replaceFirst_eq (n : String) (f : Json → Json)
    (kvs : List (String × Json)) :
    jlookup n (replaceFirst n f kvs) = (jlookup n kvs).map f := by
  induction kvs with
  | nil => rfl
  | cons kv rest ih =>
    obtain ⟨b, v⟩ := kv
    by_cases hb : b = n <;> simp [replaceFirst, jlookup, hb, ih]

lemma firstMissing_none_isSome {kvs : List (String × Json)} {req : List String}
    {r : String} (h : firstMissing kvs req = none) (hr : r ∈ req) :
    (jlookup r kvs).isSome := by
  induction req with
  | nil => simp at hr
  | cons a rest ih =>
    by_cases ha : (jlookup a kvs).isSome
    · rcases List.mem_cons.mp hr with hra | hrr
      · exact hra ▸ ha
      · exact ih (by simpa [firstMissing, ha] using h) hrr
    · simp [firstMissing, ha] at h

lemma firstMissing_none_append {kvs l : List (String × Json)} {req : List String}
    (h : firstMissing kvs req = none) :
    firstMissing (kvs ++ l) req = none := by
  induction req with
  | nil => rfl
  | cons a rest ih =>
    by_cases ha : (jlookup a kvs).isSome
    · have ha' : (jlookup a (kvs ++ l)).isSome := by
        rcases Option.isSome_iff_exists.mp ha with ⟨v, hv⟩
        simp [jlookup_append, orElse_some_left _ hv]
      simp [firstMissing, ha'] at *
      exact ih (by simpa [firstMissing, ha] using h)
    · simp [firstMissing, ha] at h

lemma extraKeys_append (props : List (String × Schema))
    (l1 l2 : List (String × Json)) :
    extraKeys props (l1 ++ l2) = extraKeys props l1 ++ extraKeys props l2 := by
  induction l1 with
  | nil => rfl
  | cons kv rest ih =>
    obtain ⟨a, v⟩ := kv
    by_cases ha : (jlookup a props).isSome <;> simp [extraKeys, ha, ih]

lemma extraKeys_nil_isSome {props : List (String × Schema)}
    {kvs : List (String × Json)} (h : extraKeys props kvs = []) :
    ∀ kv ∈ kvs, (jlookup kv.1 props).isSome := by
  induction kvs with
  | nil => simp
  | cons kv rest ih =>
    obtain ⟨a, v⟩ := kv
    by_cases ha : (jlookup a props).isSome
    · intro kv' hkv'
      rcases List.mem_cons.mp hkv' with h1 | h2
      · subst h1; exact ha
      · exact ih (by simpa [extraKeys, ha] using h) _ h2
    · simp [extraKeys, ha] at h

lemma validateProps_none_sub {props : List (String × Schema)}
    {kvs : List (String × Json)} (h : validateProps props kvs = none) :
    ∀ {name : String} {sub : Schema} {v : Json},
      (name, sub) ∈ props → jlookup name kvs = some v → validate sub v = none := by
  induction props with
  | nil => intro name sub v hmem; simp at hmem
  | cons ps rest ih =>
    obtain ⟨pname, psub⟩ := ps
    intro name sub v hmem hlk
    cases hpl : jlookup pname kvs with
    | none =>
      have h' : validateProps rest kvs = none := by
        simpa [validateProps, hpl] using h
      rcases List.mem_cons.mp hmem with heq | hrest
      · obtain ⟨h1, h2⟩ : name = pname ∧ sub = psub := by simpa using heq
        subst h1; subst h2
        rw [hpl] at hlk; cases hlk
      · exact ih h' hrest hlk
    | some w =>
      cases hvw : validate psub w with
      | some e => simp [validateProps, hpl, hvw, Option.orElse] at h
      | none =>
        have h' : validateProps rest kvs = none := by
          simpa [validateProps, hpl, hvw, Option.orElse] using h
        rcases List.mem_cons.mp hmem with heq | hrest
        · obtain ⟨h1, h2⟩ : name = pname ∧ sub = psub := by simpa using heq
          subst h1; subst h2
          rw [hpl] at hlk
          cases hlk
          exact hvw
        · exact ih h' hrest hlk

lemma validateProps_congr {props : List (String × Schema)}
    {kvs kvs' : List (String × Json)}
    (h : ∀ name, name ∈ keysOf props → jlookup name kvs' = jlookup name kvs) :
    validateProps props kvs' = validateProps props kvs := by
  induction props with
  | nil => rfl
  | cons ps rest ih =>
    obtain ⟨pname, psub⟩ := ps
    have hp := h pname (by simp [keysOf])
    have ihrest := ih (fun name hn => h name (by simp [keysOf] at hn ⊢; exact Or.inr hn))
    rcases hpl : jlookup pname kvs with _ | v <;>
      simp [validateProps, hp, hpl, ihrest]

lemma validateProps_replace_some {props : List (String × Schema)}
    {kvs : List (String × Json)} {name : String} {sub : Schema}
    {child : Json} {f : Json → Json} {e : VErr}
    (hp : jlookup name props = some sub)
    (hnone : validateProps props kvs = none)
    (hc : jlookup name kvs = some child)
    (hf : validate sub (f child) = some e) :
    ∃ e2, validateProps props (replaceFirst name f kvs) = some e2 := by
  induction props with
  | nil => simp [jlookup] at hp
  | cons ps rest ih =>
    obtain ⟨pname, psub⟩ := ps
    by_cases hpn : pname = name
    · subst hpn
      have hsub : psub = sub := by simpa [jlookup] using hp
      subst hsub
      have hre : jlookup pname (replaceFirst pname f kvs) = some (f child) := by
        rw [jlookup_replaceFirst_eq, hc]; rfl
      refine ⟨⟨e.message, .key pname :: e.path⟩, ?_⟩
      simp [validateProps, hre, hf, Option.orElse]
    · have hp' : jlookup name rest = some sub := by simpa [jlookup, hpn] using hp
      have hre : jlookup pname (replaceFirst name f kvs) = jlookup pname kvs :=
        jlookup_replaceFirst_ne _ _ hpn
      cases hpl : jlookup pname kvs with
      | none =>
        have hnone' : validateProps rest kvs = none := by
          simpa [validateProps, hpl] using hnone
        obtain ⟨e2, he2⟩ := ih hp' hnone'
        exact ⟨e2, by simp [validateProps, hre, hpl, he2]⟩
      | some w =>
        cases hvw : validate psub w with
        | some e' => simp [validateProps, hpl, hvw, Option.orElse] at hnone
        | none =>
          have hrest : validateProps rest kvs = none := by
            simpa [validateProps, hpl, hvw, Option.orElse] using hnone
          obtain ⟨e2, he2⟩ := ih hp' hrest
          exact ⟨e2, by simp [validateProps, hre, hpl, hvw, he2, Option.orElse]⟩

lemma validateItemsWith_none_mem {f : Json → Option VErr} {xs : List Json} :
    ∀ {i : Nat}, validateItemsWith f xs i = none → ∀ x ∈ xs, f x = none := by
  induction xs with
  | nil => simp
  | cons y rest ih =>
    intro i h x hx
    cases hfy : f y with
    | some e => simp [validateItemsWith, hfy, Option.orElse] at h
    | none =>
      have h' : validateItemsWith f rest (i + 1) = none := by
        simpa [validateItemsWith, hfy, Option.orElse] using h
      rcases List.mem_cons.mp hx with h1 | h2
      · subst h1; exact hfy
      · exact ih h' x h2

lemma validateItemsWith_set_some {f : Json → Option VErr} {xs : List Json} :
    ∀ {i0 i : Nat} {x x' : Json} {e : VErr},
      validateItemsWith f xs i0 = none → xs[i]? = some x → f x' = some e →
      ∃ e2, validateItemsWith f (xs.set i x') i0 = some e2 := by
  induction xs with
  | nil => intro i0 i x x' e h hg; simp at hg
  | cons y rest ih =>
    intro i0 i x x' e h hg hf
    cases hfy : f y with
    | some e' => simp [validateItemsWith, hfy, Option.orElse] at h
    | none =>
      have hrest : validateItemsWith f rest (i0 + 1) = none := by
        simpa [validateItemsWith, hfy, Option.orElse] using h
      cases i with
      | zero =>
        refine ⟨⟨e.message, .idx i0 :: e.path⟩, ?_⟩
        simp [List.set, validateItemsWith, hf, Option.orElse]
      | succ i2 =>
        have hg' : rest[i2]? = some x := by simpa using hg
        obtain ⟨e2, he2⟩ := ih hrest hg' hf
        exact ⟨e2, by simp [List.set, validateItemsWith, hfy, he2, Option.orElse]⟩

lemma validate_object_none_inv {props : List (String × Schema)} {req : List String}
    {kvs : List (String × Json)}
    (h : validate (.object props req) (.obj kvs) = none) :
    validateProps props kvs = none ∧ firstMissing kvs req = none ∧
      extraKeys props kvs = [] := by
  cases hv : validateProps props kvs with
  | some e => simp [validate, hv, Option.orElse] at h
  | none =>
    cases hm : firstMissing kvs req with
    | some r => simp [validate, hv, hm, Option.orElse] at h
    | none =>
      cases he : extraKeys props kvs with
      | cons a rest => simp [validate, hv, hm, he, Option.orElse] at h
      | nil => exact ⟨rfl, rfl, rfl⟩

lemma validate_object_some_props {props : List (String × Schema)} {req : List String}
    {kvs : List (String × Json)} {e : VErr}
    (h : validateProps props kvs = some e) :
    validate (.object props req) (.obj kvs) = some e := by
  simp [validate, h, Option.orElse]

lemma validate_object_some_extra {props : List (String × Schema)} {req : List String}
    {kvs : List (String × Json)} {a : String} {rest : List String}
    (hv : validateProps props kvs = none) (hm : firstMissing kvs req = none)
    (he : extraKeys props kvs = a :: rest) :
    validate (.object props req) (.obj kvs) = some ⟨addlErrMsg (a :: rest), []⟩ := by
  simp [validate, hv, hm, he, Option.orElse]

lemma validate_array_none_inv {items : Schema} {m : Nat} {xs : List Json}
    (h : validate (.array items m) (.arr xs) = none) :
    validateItemsWith (fun x => validate items x) xs 0 = none ∧
      ¬ xs.length < m := by
  cases hv : validateItemsWith (fun x => validate items x) xs 0 with
  | some e => simp [validate, hv, Option.orElse] at h
  | none =>
    by_cases hl : xs.length < m
    · simp [validate, hv, hl, Option.orElse] at h
    · exact ⟨rfl, hl⟩

lemma validate_array_some_items {items : Schema} {m : Nat} {xs : List Json} {e : VErr}
    (h : validateItemsWith (fun x => validate items x) xs 0 = some e) :
    validate (.array items m) (.arr xs) = some e := by
  simp [validate, h, Option.orElse]

lemma validate_integer_none_inv {mn : Int} {j : Json}
    (h : validate (.integer mn) j = none) :
    ∃ n, j = .int n ∧ ¬ n < mn := by
  cases j with
  | int n =>
    by_cases hn : n < mn
    · simp [validate, hn] at h
    · exact ⟨n, rfl, hn⟩
  | null => simp [validate] at h
  | bool b => simp [validate] at h
  | str s => simp [validate] at h
  | arr xs => simp [validate] at h
  | obj kvs => simp [validate] at h

lemma validate_strEnum_none_inv {allowed : List String} {j : Json}
    (h : validate (.strEnum allowed) j = none) :
    ∃ s, j = .str s ∧ s ∈ allowed := by
  cases j with
  | str s =>
    by_cases hs : s ∈ allowed
    · exact ⟨s, rfl, hs⟩
    · simp [validate, hs] at h
  | null => simp [validate] at h
  | bool b => simp [validate] at h
  | int n => simp [validate] at h
  | arr xs => simp [validate] at h
  | obj kvs => simp [validate] at h

lemma parse_json_error_of_validate {s : Schema} {d : Json} {e : VErr}
    (h : validate s d = some e) :
    parse_json d s = .error (e.message ++ " (path: " ++ renderPath e.path ++ ")") := by
  simp [parse_json, h]

lemma parse_json_ok_of_validate {s : Schema} {d : Json}
    (h : validate s d = none) : parse_json d s = .ok d := by
  simp [parse_json, h]

lemma insert_undeclared_key_fails (p : List Step) :
    ∀ (s : Schema) (d : Json) (props : List (String × Schema)) (req : List String)
      (kvs : List (String × Json)) (k : String) (v : Json),
      validate s d = none →
      schemaAt s p = some (.object props req) →
      getAt d p = some (.obj kvs) →
      jlookup k props = none →
      jlookup k kvs = none →
      ∃ e, validate s (setAt d p (.obj (kvs ++ [(k, v)]))) = some e := by
  induction p with
  | nil =>
    intro s d props req kvs k v hvalid hschema hdoc hkp hkk
    have hs : s = .object props req := by simpa [schemaAt] using hschema
    have hd : d = .obj kvs := by simpa [getAt] using hdoc
    subst hs; subst hd
    obtain ⟨hvp, hfm, hek⟩ := validate_object_none_inv hvalid
    have hknotin : k ∉ keysOf props := jlookup_eq_none.mp hkp
    have hvp' : validateProps props (kvs ++ [(k, v)]) = none := by
      rw [validateProps_congr ?_]
      · exact hvp
      · intro name hn
        have hnk : ¬ k = name := fun hx => hknotin (hx ▸ hn)
        rw [jlookup_append]
        cases hl : jlookup name kvs with
        | some w => rfl
        | none => simp [Option.orElse, jlookup, hnk]
    have hfm' : firstMissing (kvs ++ [(k, v)]) req = none := firstMissing_none_append hfm
    have hek' : extraKeys props (kvs ++ [(k, v)]) = [k] := by
      rw [extraKeys_append, hek]
      simp [extraKeys, hkp]
    refine ⟨⟨addlErrMsg [k], []⟩, ?_⟩
    simp only [setAt]
    exact validate_object_some_extra hvp' hfm' hek'
  | cons step rest ih =>
    intro s d props req kvs k v hvalid hschema hdoc hkp hkk
    cases step with
    | key n =>
      cases s with
      | object props' req' =>
        cases hsub : jlookup n props' with
        | none => simp [schemaAt, hsub] at hschema
        | some sub =>
          have hschema' : schemaAt sub rest = some (.object props req) := by
            simpa [schemaAt, hsub] using hschema
          cases d with
          | obj kvs' =>
            cases hchild : jlookup n kvs' with
            | none => simp [getAt, hchild] at hdoc
            | some child =>
              have hdoc' : getAt child rest = some (.obj kvs) := by
                simpa [getAt, hchild] using hdoc
              obtain ⟨hvp, hfm, hek⟩ := validate_object_none_inv hvalid
              have hchildvalid : validate sub child = none :=
                validateProps_none_sub hvp (jlookup_mem hsub) hchild
              obtain ⟨e', he'⟩ :=
                ih sub child props req kvs k v hchildvalid hschema' hdoc' hkp hkk
              obtain ⟨e2, he2⟩ :=
                validateProps_replace_some
                  (f := fun old => setAt old rest (.obj (kvs ++ [(k, v)])))
                  hsub hvp hchild he'
              refine ⟨e2, ?_⟩
              simp only [setAt]
              exact validate_object_some_props he2
          | null => simp [getAt] at hdoc
          | bool b => simp [getAt] at hdoc
          | int m => simp [getAt] at hdoc
          | str st => simp [getAt] at hdoc
          | arr xs => simp [getAt] at hdoc
      | array items m => simp [schemaAt] at hschema
      | integer mn => simp [schemaAt] at hschema
      | string => simp [schemaAt] at hschema
      | strEnum allowed => simp [schemaAt] at hschema
    | idx i =>
      cases s with
      | array items m =>
        have hschema' : schemaAt items rest = some (.object props req) := by
          simpa [schemaAt] using hschema
        cases d with
        | arr xs =>
          cases hchild : xs[i]? with
          | none => simp [getAt, hchild] at hdoc
          | some child =>
            have hdoc' : getAt child rest = some (.obj kvs) := by
              simpa [getAt, hchild] using hdoc
            obtain ⟨hitems, hlen⟩ := validate_array_none_inv hvalid
            have hchildvalid : validate items child = none := by
              simpa using validateItemsWith_none_mem hitems child (List.getElem?_mem hchild)
            obtain ⟨e', he'⟩ :=
              ih items child props req kvs k v hchildvalid hschema' hdoc' hkp hkk
            have hfx : (fun x => validate items x)
                (setAt child rest (.obj (kvs ++ [(k, v)]))) = some e' := by
              simpa using he'
            obtain ⟨e2, he2⟩ := validateItemsWith_set_some hitems hchild hfx
            refine ⟨e2, ?_⟩
            simp only [setAt, hchild]
            exact validate_array_some_items he2
        | null => simp [getAt] at hdoc
        | bool b => simp [getAt] at hdoc
        | int m2 => simp [getAt] at hdoc
        | str st => simp [getAt] at hdoc
        | obj kvs' => simp [getAt] at hdoc
      | object props' req' => simp [schemaAt] at hschema
      | integer mn => simp [schemaAt] at hschema
      | string => simp [schemaAt] at hschema
      | strEnum allowed => simp [schemaAt] at hschema

lemma validate_string_none_inv {j : Json} (h : validate .string j = none) :
    ∃ s, j = .str s := by
  cases j with
  | str s => exact ⟨s, rfl⟩
  | null => simp [validate] at h
  | bool b => simp [validate] at h
  | int n => simp [validate] at h
  | arr xs => simp [validate] at h
  | obj kvs => simp [validate] at h

lemma nodupKeys_iff {l : List String} : nodupKeys l = true ↔ l.Nodup := by
  induction l with
  | nil => simp [nodupKeys]
  | cons k rest ih =>
    simp [nodupKeys, ih, List.nodup_cons, List.elem_iff]

lemma wfJson_obj {kvs : List (String × Json)} (h : wfJson (.obj kvs) = true) :
    (keysOf kvs).Nodup := by
  have h' : nodupKeys (keysOf kvs) = true ∧ wfJsonKVs kvs = true := by
    simpa [wfJson, Bool.and_eq_true] using h
  exact nodupKeys_iff.mp h'.1

lemma wfJson_arr_mem {xs : List Json} {x : Json}
    (h : wfJson (.arr xs) = true) (hx : x ∈ xs) : wfJson x = true := by
  have h' : wfJsonList xs = true := by simpa [wfJson] using h
  induction xs with
  | nil => simp at hx
  | cons y rest ih =>
    have hparts : wfJson y = true ∧ wfJsonList rest = true := by
      simpa [wfJsonList, Bool.and_eq_true] using h'
    rcases List.mem_cons.mp hx with h1 | h2
    · subst h1; exact hparts.1
    · exact ih (by simp [wfJson, hparts.2]) h2 hparts.2

lemma props_valid_inv {d : Json} (h : validate props_schema d = none) :
    ∃ kvs rkvs fkvs modeStr hN spN fsN,
      d = .obj kvs ∧
      jlookup "rows" kvs = some (.obj rkvs) ∧
      jlookup "font" kvs = some (.obj fkvs) ∧
      jlookup "mode" kvs = some (.str modeStr) ∧
      jlookup "height" rkvs = some (.int hN) ∧ ¬ hN < 1 ∧
      jlookup "spacing" rkvs = some (.int spN) ∧ ¬ spN < 1 ∧
      jlookup "size" fkvs = some (.int fsN) ∧ ¬ fsN < 1 ∧
      modeStr ∈ ["columns", "rows"] := by
  cases d with
  | obj kvs =>
    simp only [props_schema] at h
    obtain ⟨hvp, hfm, hek⟩ := validate_object_none_inv h
    obtain ⟨rowsv, hrows⟩ := Option.isSome_iff_exists.mp
      (firstMissing_none_isSome hfm (show "rows" ∈ ["rows", "font", "mode"] by simp))
    obtain ⟨fontv, hfont⟩ := Option.isSome_iff_exists.mp
      (firstMissing_none_isSome hfm (show "font" ∈ ["rows", "font", "mode"] by simp))
    obtain ⟨modev, hmode⟩ := Option.isSome_iff_exists.mp
      (firstMissing_none_isSome hfm (show "mode" ∈ ["rows", "font", "mode"] by simp))
    have hrv : validate rows_schema rowsv = none :=
      validateProps_none_sub hvp (by simp) hrows
    have hfv : validate font_schema fontv = none :=
      validateProps_none_sub hvp (by simp) hfont
    have hmv : validate mode_schema modev = none :=
      validateProps_none_sub hvp (by simp) hmode
    obtain ⟨modeStr, hmseq, hmsmem⟩ := validate_strEnum_none_inv (by simpa [mode_schema] using hmv)
    subst hmseq
    cases rowsv with
    | obj rkvs =>
      simp only [rows_schema] at hrv
      obtain ⟨hvpr, hfmr, _⟩ := validate_object_none_inv hrv
      obtain ⟨hv, hheight⟩ := Option.isSome_iff_exists.mp
        (firstMissing_none_isSome hfmr (show "height" ∈ ["height", "spacing"] by simp))
      obtain ⟨spv, hspacing⟩ := Option.isSome_iff_exists.mp
        (firstMissing_none_isSome hfmr (show "spacing" ∈ ["height", "spacing"] by simp))
      have hhv : validate (.integer 1) hv = none :=
        validateProps_none_sub hvpr (show ("height", Schema.integer 1) ∈
          [("height", Schema.integer 1), ("spacing", Schema.integer 1),
           ("critical_value_size", Schema.integer 1)] by simp) hheight
      have hspv : validate (.integer 1) spv = none :=
        validateProps_none_sub hvpr (show ("spacing", Schema.integer 1) ∈
          [("height", Schema.integer 1), ("spacing", Schema.integer 1),
           ("critical_value_size", Schema.integer 1)] by simp) hspacing
      obtain ⟨hN, hheq, hhmin⟩ := validate_integer_none_inv hhv
      obtain ⟨spN, hspeq, hspmin⟩ := validate_integer_none_inv hspv
      subst hheq; subst hspeq
      cases fontv with
      | obj fkvs =>
        simp only [font_schema] at hfv
        obtain ⟨hvpf, hfmf, _⟩ := validate_object_none_inv hfv
        obtain ⟨fsv, hsize⟩ := Option.isSome_iff_exists.mp
          (firstMissing_none_isSome hfmf (show "size" ∈ ["size"] by simp))
        have hfsv : validate (.integer 1) fsv = none :=
          validateProps_none_sub hvpf (show ("size", Schema.integer 1) ∈
            [("size", Schema.integer 1)] by simp) hsize
        obtain ⟨fsN, hfseq, hfsmin⟩ := validate_integer_none_inv hfsv
        subst hfseq
        exact ⟨kvs, rkvs, fkvs, modeStr, hN, spN, fsN, rfl, hrows, hfont, hmode,
          hheight, hhmin, hspacing, hspmin, hsize, hfsmin, hmsmem⟩
      | null => simp [font_schema, validate] at hfv
      | bool b => simp [font_schema, validate] at hfv
      | int n => simp [font_schema, validate] at hfv
      | str s => simp [font_schema, validate] at hfv
      | arr xs => simp [font_schema, validate] at hfv
    | null => simp [rows_schema, validate] at hrv
    | bool b => simp [rows_schema, validate] at hrv
    | int n => simp [rows_schema, validate] at hrv
    | str s => simp [rows_schema, validate] at hrv
    | arr xs => simp [rows_schema, validate] at hrv
  | null => simp [props_schema, validate] at h
  | bool b => simp [props_schema, validate] at h
  | int n => simp [props_schema, validate] at h
  | str s => simp [props_schema, validate] at h
  | arr xs => simp [props_schema, validate] at h

lemma group_valid_inv {g : Json} (h : validate group_schema g = none) :
    ∃ kvs nameStr items,
      g = .obj kvs ∧
      jlookup "name" kvs = some (.str nameStr) ∧
      jlookup "data" kvs = some (.arr items) ∧
      1 ≤ items.length ∧
      (∀ kv ∈ kvs, kv.1 = "name" ∨ kv.1 = "data") ∧
      (∀ it ∈ items, ∃ ikvs nm vl,
        it = .obj ikvs ∧ jlookup "name" ikvs = some (.str nm) ∧
        jlookup "value" ikvs = some (.str vl)) := by
  cases g with
  | obj kvs =>
    simp only [group_schema] at h
    obtain ⟨hvp, hfm, hek⟩ := validate_object_none_inv h
    obtain ⟨namev, hname⟩ := Option.isSome_iff_exists.mp
      (firstMissing_none_isSome hfm (show "name" ∈ ["name", "data"] by simp))
    obtain ⟨datav, hdata⟩ := Option.isSome_iff_exists.mp
      (firstMissing_none_isSome hfm (show "data" ∈ ["name", "data"] by simp))
    have hnv : validate .string namev = none :=
      validateProps_none_sub hvp (show ("name", Schema.string) ∈
        [("name", Schema.string), ("data", Schema.array item_schema 1)] by simp) hname
    obtain ⟨nameStr, hnseq⟩ := validate_string_none_inv hnv
    subst hnseq
    have hdv : validate (.array item_schema 1) datav = none :=
      validateProps_none_sub hvp (by simp) hdata
    cases datav with
    | arr items =>
      obtain ⟨hitems, hlen⟩ := validate_array_none_inv hdv
      refine ⟨kvs, nameStr, items, rfl, hname, hdata, by omega, ?_, ?_⟩
      · intro kv hkv
        have hks := extraKeys_nil_isSome hek kv hkv
        by_cases h1 : kv.1 = "name"
        · exact Or.inl h1
        · by_cases h2 : kv.1 = "data"
          · exact Or.inr h2
          · have h1' : ¬ "name" = kv.1 := fun hx => h1 hx.symm
            have h2' : ¬ "data" = kv.1 := fun hx => h2 hx.symm
            simp [jlookup, h1', h2'] at hks
      · intro it hit
        have hiv : validate item_schema it = none := by
          simpa using validateItemsWith_none_mem hitems it hit
        cases it with
        | obj ikvs =>
          simp only [item_schema] at hiv
          obtain ⟨hvpi, hfmi, _⟩ := validate_object_none_inv hiv
          obtain ⟨nv, hn⟩ := Option.isSome_iff_exists.mp
            (firstMissing_none_isSome hfmi (show "name" ∈ ["name", "value"] by simp))
          obtain ⟨vv, hv⟩ := Option.isSome_iff_exists.mp
            (firstMissing_none_isSome hfmi (show "value" ∈ ["name", "value"] by simp))
          have hnv2 : validate .string nv = none :=
            validateProps_none_sub hvpi (show ("name", Schema.string) ∈
              [("name", Schema.string), ("value", Schema.string)] by simp) hn
          have hvv2 : validate .string vv = none :=
            validateProps_none_sub hvpi (show ("value", Schema.string) ∈
              [("name", Schema.string), ("value", Schema.string)] by simp) hv
          obtain ⟨nm, hnm⟩ := validate_string_none_inv hnv2
          obtain ⟨vl, hvl⟩ := validate_string_none_inv hvv2
          subst hnm; subst hvl
          exact ⟨ikvs, nm, vl, rfl, hn, hv⟩
        | null => simp [item_schema, validate] at hiv
        | bool b => simp [item_schema, validate] at hiv
        | int n => simp [item_schema, validate] at hiv
        | str s => simp [item_schema, validate] at hiv
        | arr xs => simp [item_schema, validate] at hiv
    | null => simp [validate] at hdv
    | bool b => simp [validate] at hdv
    | int n => simp [validate] at hdv
    | str s => simp [validate] at hdv
    | obj kvs2 => simp [validate] at hdv
  | null => simp [group_schema, validate] at h
  | bool b => simp [group_schema, validate] at h
  | int n => simp [group_schema, validate] at h
  | str s => simp [group_schema, validate] at h
  | arr xs => simp [group_schema, validate] at h

lemma data_valid_inv {gs : List Json} (h : validate data_schema (.arr gs) = none) :
    1 ≤ gs.length ∧ ∀ g ∈ gs, validate group_schema g = none := by
  simp only [data_schema] at h
  obtain ⟨hitems, hlen⟩ := validate_array_none_inv h
  refine ⟨by omega, fun g hg => ?_⟩
  simpa using validateItemsWith_none_mem hitems g hg

lemma pyListIndex_ge {α : Type} (xs : List α) (i : Int)
    (h : (xs.length : Int) ≤ i) :
    pyListIndex xs i = .error .indexError := by
  have h0 : ¬ i < 0 := by omega
  simp only [pyListIndex, h0, if_false]
  rw [dif_neg]
  rintro ⟨h1, h2⟩
  omega

lemma pyListIndex_neg {α : Type} (xs : List α) (k : Nat)
    (h1 : 1 ≤ k) (h2 : k ≤ xs.length) :
    ∃ x, xs[xs.length - k]? = some x ∧ pyListIndex xs (-(k : Int)) = .ok x := by
  have hneg : (-(k : Int)) < 0 := by omega
  have htn : ((-(k : Int)) + xs.length).toNat = xs.length - k := by omega
  have hcond : 0 ≤ (-(k : Int)) + xs.length ∧
      ((-(k : Int)) + xs.length).toNat < xs.length := by omega
  refine ⟨xs.get ⟨xs.length - k, by omega⟩, ?_, ?_⟩
  · rw [List.getElem?_eq_getElem (by omega)]
    simp [List.get_eq_getElem]
  · simp only [pyListIndex, hneg, if_true]
    rw [dif_pos hcond]
    simp only [List.get_eq_getElem, Except.ok.injEq]
    congr 1

lemma pyListIndex_nat {α : Type} (xs : List α) (i : Nat) {x : α}
    (h : xs[i]? = some x) : pyListIndex xs (i : Int) = .ok x := by
  obtain ⟨hlt, hx⟩ := List.getElem?_eq_some_iff.mp h
  have h0 : ¬ (i : Int) < 0 := by omega
  have hcond : 0 ≤ (i : Int) ∧ ((i : Int)).toNat < xs.length := by omega
  have ht : ((i : Int)).toNat = i := by omega
  simp only [pyListIndex, h0, if_false]
  rw [dif_pos hcond]
  simp [List.get_eq_getElem, ht, hx]

/-- C1: whenever validation of a document against its schema fails,
exactly one domain error (`PropertiesError`, modelled by the single
`Except.error` outcome of `parse_json`) is raised, and its message
combines the violation message with a rendered structural path in which
every string-valued step renders double-quoted as `"key"`, every
integer-valued step renders as a bare number, the steps join as
`[step1][step2]...`, and a violation at the document root renders the
empty path `[]`. -/
theorem C1_error_message_combines_path (s : Schema) (d : Json) (e : VErr)
    (h : validate s d = some e) :
    parse_json d s = .error (e.message ++ " (path: " ++ renderPath e.path ++ ")") ∧
    renderPath e.path = "[" ++ String.intercalate "][" (e.path.map renderStep) ++ "]" ∧
    (∀ st, renderStep (.key st) = "\"" ++ st ++ "\"") ∧
    (∀ n, renderStep (.idx n) = toString n) ∧
    renderPath [] = "[]" :=
  ⟨parse_json_error_of_validate h, rfl, fun _ => rfl, fun _ => rfl, rfl⟩

/-- Witness for C1 at the height-0 scenario document: the violation at
`rows.height` renders path `["rows"]["height"]` inside the message. -/
theorem C1_error_message_combines_path_witness :
    validate props_schema props_doc_height0 =
      some ⟨"0 is less than the minimum of 1", [.key "rows", .key "height"]⟩ ∧
    parse_json props_doc_height0 props_schema =
      .error "0 is less than the minimum of 1 (path: [\"rows\"][\"height\"])" := by
  refine ⟨rfl, ?_⟩
  have h := C1_error_message_combines_path props_schema props_doc_height0
    ⟨"0 is less than the minimum of 1", [.key "rows", .key "height"]⟩ rfl
  exact h.1.trans rfl

/-- C3: for each schema rule kind — missing required key, undeclared
extra key, wrong type, integer below its minimum, enum value not among
the permitted ones, array shorter than its minimum length — a document
violating only that rule is rejected by the view constructor, with the
violation's structural path in the error; in particular the scenario
document with `height` 0 is rejected because `height` is below the
minimum of 1. -/
theorem C3_each_rule_rejected_with_path :
    (validate props_schema props_doc_no_mode =
        some ⟨"'mode' is a required property", []⟩ ∧
      Properties.init props_doc_no_mode =
        .error "'mode' is a required property (path: [])") ∧
    (validate props_schema props_doc_extra =
        some ⟨"Additional properties are not allowed ('extra' was unexpected)", []⟩ ∧
      Properties.init props_doc_extra =
        .error "Additional properties are not allowed ('extra' was unexpected) (path: [])") ∧
    (validate props_schema props_doc_height_str =
        some ⟨"'10' is not of type 'integer'", [.key "rows", .key "height"]⟩ ∧
      Properties.init props_doc_height_str =
        .error "'10' is not of type 'integer' (path: [\"rows\"][\"height\"])") ∧
    (validate props_schema props_doc_height0 =
        some ⟨"0 is less than the minimum of 1", [.key "rows", .key "height"]⟩ ∧
      Properties.init props_doc_height0 =
        .error "0 is less than the minimum of 1 (path: [\"rows\"][\"height\"])") ∧
    (validate props_schema props_doc_bad_mode =
        some ⟨"'diag' is not one of ['columns', 'rows']", [.key "mode"]⟩ ∧
      Properties.init props_doc_bad_mode =
        .error "'diag' is not one of ['columns', 'rows'] (path: [\"mode\"])") ∧
    (validate data_schema (.arr []) = some ⟨"[] is too short", []⟩ ∧
      Data.init (.arr []) = .error "[] is too short (path: [])") :=
  ⟨⟨rfl, rfl⟩, ⟨rfl, rfl⟩, ⟨rfl, rfl⟩, ⟨rfl, rfl⟩, ⟨rfl, rfl⟩, ⟨rfl, rfl⟩⟩

/-- C9: the `DataGroup` and `DataItem` constructors perform no validation
(they are total and store their argument unchanged); a shape violation in
the wrapped dict surfaces only later, as a KeyError from the accessor
that reads the missing key (`name`, `value`, indexed access or
iteration), while `len` on a dict never reads a key. -/
theorem C9_constructors_no_validation (j : Json) (kvs : List (String × Json))
    (hn : jlookup "name" kvs = none) (hv : jlookup "value" kvs = none)
    (hd : jlookup "data" kvs = none) :
    (DataGroup.mk j).data = j ∧
    (DataItem.mk j).data = j ∧
    DataItem.name ⟨.obj kvs⟩ = .error (.keyError "name") ∧
    DataItem.value ⟨.obj kvs⟩ = .error (.keyError "value") ∧
    DataGroup.name ⟨.obj kvs⟩ = .error (.keyError "name") ∧
    (∀ i : Int, DataGroup.getitem ⟨.obj kvs⟩ i = .error (.keyError "data")) ∧
    DataGroup.iter ⟨.obj kvs⟩ = .error (.keyError "data") ∧
    DataGroup.len ⟨.obj kvs⟩ = .ok kvs.length := by
  refine ⟨rfl, rfl, ?_, ?_, ?_, ?_, ?_, rfl⟩
  · simp [DataItem.name, pyGet, hn]
  · simp [DataItem.value, pyGet, hv]
  · simp [DataGroup.name, pyGet, hn]
  · intro i
    simp [DataGroup.getitem, pyGet, hd, Except.bind]
  · simp [DataGroup.iter, pyGet, hd, Except.bind]

/-- Witness for C9 on the empty dict: both constructors succeed and every
key-reading accessor raises the KeyError for its key. -/
theorem C9_constructors_no_validation_witness :
    (DataGroup.mk (.obj [])).data = .obj [] ∧
    (DataItem.mk (.obj [])).data = .obj [] ∧
    DataItem.name ⟨.obj []⟩ = .error (.keyError "name") ∧
    DataItem.value ⟨.obj []⟩ = .error (.keyError "value") ∧
    DataGroup.name ⟨.obj []⟩ = .error (.keyError "name") ∧
    (∀ i : Int, DataGroup.getitem ⟨.obj []⟩ i = .error (.keyError "data")) ∧
    DataGroup.iter ⟨.obj []⟩ = .error (.keyError "data") ∧
    DataGroup.len ⟨.obj []⟩ = .ok 0 :=
  C9_constructors_no_validation (.obj []) [] rfl rfl rfl

/-- C10: indexed access performs no bounds checking of its own: an index
at or past the length raises IndexError (a `PyErr`, not the
`PropertiesError` of validation), and a negative index `-k` with
`1 ≤ k ≤ n` succeeds and returns the `k`-th element counted from the
end, both on `Data` and on `DataGroup`. -/
theorem C10_indexing_bounds (gs items : List Json) (kvs : List (String × Json))
    (hdata : jlookup "data" kvs = some (.arr items)) :
    (∀ i : Int, (gs.length : Int) ≤ i →
      Data.getitem ⟨.arr gs⟩ i = .error .indexError) ∧
    (∀ k : Nat, 1 ≤ k → k ≤ gs.length →
      ∃ g, gs[gs.length - k]? = some g ∧
        Data.getitem ⟨.arr gs⟩ (-(k : Int)) = .ok ⟨g⟩) ∧
    (∀ i : Int, (items.length : Int) ≤ i →
      DataGroup.getitem ⟨.obj kvs⟩ i = .error .indexError) ∧
    (∀ k : Nat, 1 ≤ k → k ≤ items.length →
      ∃ it, items[items.length - k]? = some it ∧
        DataGroup.getitem ⟨.obj kvs⟩ (-(k : Int)) = .ok ⟨it⟩) := by
  refine ⟨?_, ?_, ?_, ?_⟩
  · intro i hi
    simp [Data.getitem, pyIndex, Except.map, pyListIndex_ge gs i hi]
  · intro k h1 h2
    obtain ⟨g, hg, hpy⟩ := pyListIndex_neg gs k h1 h2
    exact ⟨g, hg, by simp [Data.getitem, pyIndex, Except.map, hpy]⟩
  · intro i hi
    simp [DataGroup.getitem, pyGet, hdata, pyIndex, Except.bind, Except.map,
      pyListIndex_ge items i hi]
  · intro k h1 h2
    obtain ⟨it, hit, hpy⟩ := pyListIndex_neg items k h1 h2
    exact ⟨it, hit, by simp [DataGroup.getitem, pyGet, hdata, pyIndex, Except.bind, Except.map, hpy]⟩

/-- Witness for C10 on the one-group scenario document: index 1 is out of
range and index -1 returns the last element. -/
theorem C10_indexing_bounds_witness :
    Data.getitem ⟨data_doc_g1⟩ 1 = .error .indexError ∧
    Data.getitem ⟨data_doc_g1⟩ (-1) =
      .ok ⟨.obj [("name", .str "g1"),
                 ("data", .arr [.obj [("name", .str "a"), ("value", .str "1")]])]⟩ := by
  have h := C10_indexing_bounds
    [.obj [("name", .str "g1"),
           ("data", .arr [.obj [("name", .str "a"), ("value", .str "1")]])]]
    [.obj [("name", .str "a"), ("value", .str "1")]]
    [("name", .str "g1"),
     ("data", .arr [.obj [("name", .str "a"), ("value", .str "1")]])]
    rfl
  constructor
  · exact h.1 1 (by decide)
  · obtain ⟨g, hg, hres⟩ := h.2.1 1 (by decide) (by decide)
    have hgv : g = .obj [("name", .str "g1"),
        ("data", .arr [.obj [("name", .str "a"), ("value", .str "1")]])] := by
      have : some g = some (Json.obj [("name", .str "g1"),
          ("data", .arr [.obj [("name", .str "a"), ("value", .str "1")]])]) := by
        rw [← hg]; rfl
      exact (Option.some.injEq _ _ ▸ this).symm ▸ rfl
    rw [hgv] at hres
    exact hres

/-- C8: `rows.critical_value_size` is optional — a document whose rows
object contains only `height` and `spacing` still validates and the
`Properties` constructor succeeds — and on such an instance the
`critical_value_size` accessor fails with a KeyError (the key is
absent) rather than returning a default value. -/
theorem C8_critical_value_size_optional (h sp fs : Int) (m : String)
    (hh : 1 ≤ h) (hsp : 1 ≤ sp) (hfs : 1 ≤ fs) (hm : m ∈ ["columns", "rows"]) :
    validate props_schema (props_doc_min h sp fs m) = none ∧
    Properties.init (props_doc_min h sp fs m) = .ok ⟨props_doc_min h sp fs m⟩ ∧
    Properties.critical_value_size ⟨props_doc_min h sp fs m⟩ =
      .error (.keyError "critical_value_size") ∧
    Properties.row_height ⟨props_doc_min h sp fs m⟩ = .ok (.int h) ∧
    Properties.rows_spacing ⟨props_doc_min h sp fs m⟩ = .ok (.int sp) ∧
    Properties.font_size ⟨props_doc_min h sp fs m⟩ = .ok (.int fs) ∧
    Properties.mode ⟨props_doc_min h sp fs m⟩ = .ok (.str m) := by
  have hh' : ¬ h < 1 := by omega
  have hsp' : ¬ sp < 1 := by omega
  have hfs' : ¬ fs < 1 := by omega
  have hval : validate props_schema (props_doc_min h sp fs m) = none := by
    simp [props_doc_min, props_schema, rows_schema, font_schema, mode_schema,
      validate, validateProps, jlookup, firstMissing, extraKeys, Option.orElse,
      hh', hsp', hfs', hm]
  refine ⟨hval, ?_, ?_, ?_, ?_, ?_, ?_⟩
  · simp [Properties.init, parse_json_ok_of_validate hval, Except.map]
  · simp [Properties.critical_value_size, props_doc_min, pyGet, jlookup, Except.bind]
  · simp [Properties.row_height, props_doc_min, pyGet, jlookup, Except.bind]
  · simp [Properties.rows_spacing, props_doc_min, pyGet, jlookup, Except.bind]
  · simp [Properties.font_size, props_doc_min, pyGet, jlookup, Except.bind]
  · simp [Properties.mode, props_doc_min, pyGet, jlookup]

/-- Witness for C8 at the spec scenario (height 10, spacing 2, size 12,
mode "rows"). -/
theorem C8_critical_value_size_optional_witness :
    validate props_schema props_doc_ok = none ∧
    Properties.init props_doc_ok = .ok ⟨props_doc_ok⟩ ∧
    Properties.critical_value_size ⟨props_doc_ok⟩ =
      .error (.keyError "critical_value_size") ∧
    Properties.row_height ⟨props_doc_ok⟩ = .ok (.int 10) ∧
    Properties.rows_spacing ⟨props_doc_ok⟩ = .ok (.int 2) ∧
    Properties.font_size ⟨props_doc_ok⟩ = .ok (.int 12) ∧
    Properties.mode ⟨props_doc_ok⟩ = .ok (.str "rows") :=
  C8_critical_value_size_optional 10 2 12 "rows"
    (by decide) (by decide) (by decide) (by decide)

/-- C6: iteration over a `Data` (and a `DataGroup`) is restartable and
non-consuming: each `__iter__` call builds a fresh finite iterator from
the unchanged backing list, one wrapper per element in document order;
two traversals yield the same sequences, and consuming part of one
iterator value leaves a later fresh traversal unchanged. -/
theorem C6_iteration_restartable (d : Data) (gs : List Json)
    (hd : d.data = .arr gs)
    (g : DataGroup) (ikvs : List (String × Json)) (items : List Json)
    (hg : g.data = .obj ikvs)
    (hitems : jlookup "data" ikvs = some (.arr items)) :
    Data.iter d = .ok ⟨gs.map DataGroup.mk⟩ ∧
    (∀ it1 it2, Data.iter d = .ok it1 → Data.iter d = .ok it2 →
      it1.toList.map DataGroup.name = it2.toList.map DataGroup.name) ∧
    (∀ it1 k, Data.iter d = .ok it1 →
      (PyMapIter.consume k it1).toList = it1.toList.drop k ∧
      Data.iter d = .ok ⟨gs.map DataGroup.mk⟩) ∧
    DataGroup.iter g = .ok ⟨items.map DataItem.mk⟩ ∧
    (∀ it1 it2, DataGroup.iter g = .ok it1 → DataGroup.iter g = .ok it2 →
      it1.toList.map DataItem.name = it2.toList.map DataItem.name) ∧
    (∀ it1 k, DataGroup.iter g = .ok it1 →
      (PyMapIter.consume k it1).toList = it1.toList.drop k ∧
      DataGroup.iter g = .ok ⟨items.map DataItem.mk⟩) := by
  have hdi : Data.iter d = .ok ⟨gs.map DataGroup.mk⟩ := by
    simp [Data.iter, hd, pyIterJson, Except.map]
  have hgi : DataGroup.iter g = .ok ⟨items.map DataItem.mk⟩ := by
    simp [DataGroup.iter, hg, pyGet, hitems, pyIterJson, Except.bind, Except.map]
  refine ⟨hdi, ?_, ?_, hgi, ?_, ?_⟩
  · intro it1 it2 h1 h2
    have : it1 = it2 := by
      have := h1.symm.trans h2
      exact Except.ok.inj this
    rw [this]
  · intro it1 k h1
    exact ⟨rfl, hdi⟩
  · intro it1 it2 h1 h2
    have : it1 = it2 := by
      have := h1.symm.trans h2
      exact Except.ok.inj this
    rw [this]
  · intro it1 k h1
    exact ⟨rfl, hgi⟩

/-- Witness for C6 on the one-group scenario document. -/
theorem C6_iteration_restartable_witness :
    Data.iter ⟨data_doc_g1⟩ =
      .ok ⟨[DataGroup.mk (.obj [("name", .str "g1"),
            ("data", .arr [.obj [("name", .str "a"), ("value", .str "1")]])])]⟩ ∧
    DataGroup.iter ⟨.obj [("name", .str "g1"),
        ("data", .arr [.obj [("name", .str "a"), ("value", .str "1")]])]⟩ =
      .ok ⟨[DataItem.mk (.obj [("name", .str "a"), ("value", .str "1")])]⟩ := by
  have h := C6_iteration_restartable ⟨data_doc_g1⟩
    [.obj [("name", .str "g1"),
           ("data", .arr [.obj [("name", .str "a"), ("value", .str "1")]])]]
    rfl
    ⟨.obj [("name", .str "g1"),
          ("data", .arr [.obj [("name", .str "a"), ("value", .str "1")]])]⟩
    [("name", .str "g1"),
     ("data", .arr [.obj [("name", .str "a"), ("value", .str "1")]])]
    [.obj [("name", .str "a"), ("value", .str "1")]]
    rfl rfl
  exact ⟨h.1, h.2.2.2.1⟩

/-- C2: for every document satisfying its schema, the view constructor
succeeds and stores the document unchanged, and every accessor returns
the corresponding input field structurally identical to the input: for
`Properties` the four scalar accessors read `rows.height`,
`rows.spacing`, `font.size` and `mode`; for `Data`, the length is the
number of top-level groups and indexed/chained access returns the input
fragments' `name`/`value` strings unchanged. -/
theorem C2_round_trip_identity (dp : Json) (gs : List Json)
    (hp : validate props_schema dp = none)
    (hd : validate data_schema (.arr gs) = none) :
    Properties.init dp = .ok ⟨dp⟩ ∧
    (∀ kvs rkvs v, dp = .obj kvs → jlookup "rows" kvs = some (.obj rkvs) →
      jlookup "height" rkvs = some v → Properties.row_height ⟨dp⟩ = .ok v) ∧
    (∀ kvs rkvs v, dp = .obj kvs → jlookup "rows" kvs = some (.obj rkvs) →
      jlookup "spacing" rkvs = some v → Properties.rows_spacing ⟨dp⟩ = .ok v) ∧
    (∀ kvs fkvs v, dp = .obj kvs → jlookup "font" kvs = some (.obj fkvs) →
      jlookup "size" fkvs = some v → Properties.font_size ⟨dp⟩ = .ok v) ∧
    (∀ kvs v, dp = .obj kvs → jlookup "mode" kvs = some v →
      Properties.mode ⟨dp⟩ = .ok v) ∧
    Data.init (.arr gs) = .ok ⟨.arr gs⟩ ∧
    Data.len ⟨.arr gs⟩ = .ok gs.length ∧
    (∀ (i : Nat) g, gs[i]? = some g →
      Data.getitem ⟨.arr gs⟩ (i : Int) = .ok ⟨g⟩) ∧
    (∀ kvs v, jlookup "name" kvs = some v →
      DataGroup.name ⟨.obj kvs⟩ = .ok v) ∧
    (∀ kvs items (j : Nat) it, jlookup "data" kvs = some (.arr items) →
      items[j]? = some it →
      DataGroup.getitem ⟨.obj kvs⟩ (j : Int) = .ok ⟨it⟩) ∧
    (∀ ikvs v, jlookup "name" ikvs = some v →
      DataItem.name ⟨.obj ikvs⟩ = .ok v) ∧
    (∀ ikvs v, jlookup "value" ikvs = some v →
      DataItem.value ⟨.obj ikvs⟩ = .ok v) := by
  refine ⟨?_, ?_, ?_, ?_, ?_, ?_, ?_, ?_, ?_, ?_, ?_, ?_⟩
  · simp [Properties.init, parse_json_ok_of_validate hp, Except.map]
  · intro kvs rkvs v hdp h1 h2
    subst hdp
    simp [Properties.row_height, pyGet, h1, h2, Except.bind]
  · intro kvs rkvs v hdp h1 h2
    subst hdp
    simp [Properties.rows_spacing, pyGet, h1, h2, Except.bind]
  · intro kvs fkvs v hdp h1 h2
    subst hdp
    simp [Properties.font_size, pyGet, h1, h2, Except.bind]
  · intro kvs v hdp h1
    subst hdp
    simp [Properties.mode, pyGet, h1]
  · simp [Data.init, parse_json_ok_of_validate hd, Except.map]
  · rfl
  · intro i g hig
    simp [Data.getitem, pyIndex, pyListIndex_nat gs i hig, Except.map]
  · intro kvs v h1
    simp [DataGroup.name, pyGet, h1]
  · intro kvs items j it h1 h2
    simp [DataGroup.getitem, pyGet, h1, pyIndex, pyListIndex_nat items j h2,
      Except.bind, Except.map]
  · intro ikvs v h1
    simp [DataItem.name, pyGet, h1]
  · intro ikvs v h1
    simp [DataItem.value, pyGet, h1]

/-- Witness for C2 at the two spec scenarios: the `Properties` scenario
document and `Data([{"name":"g1","data":[{"name":"a","value":"1"}]}])`,
for which len == 1, data[0].name == "g1", data[0][0].name == "a" and
data[0][0].value == "1". -/
theorem C2_round_trip_identity_witness :
    Properties.init props_doc_ok = .ok ⟨props_doc_ok⟩ ∧
    Properties.row_height ⟨props_doc_ok⟩ = .ok (.int 10) ∧
    Data.init data_doc_g1 = .ok ⟨data_doc_g1⟩ ∧
    Data.len ⟨data_doc_g1⟩ = .ok 1 ∧
    Data.getitem ⟨data_doc_g1⟩ 0 =
      .ok ⟨.obj [("name", .str "g1"),
                 ("data", .arr [.obj [("name", .str "a"), ("value", .str "1")]])]⟩ ∧
    DataGroup.name ⟨.obj [("name", .str "g1"),
        ("data", .arr [.obj [("name", .str "a"), ("value", .str "1")]])]⟩ =
      .ok (.str "g1") ∧
    DataGroup.getitem ⟨.obj [("name", .str "g1"),
        ("data", .arr [.obj [("name", .str "a"), ("value", .str "1")]])]⟩ 0 =
      .ok ⟨.obj [("name", .str "a"), ("value", .str "1")]⟩ ∧
    DataItem.name ⟨.obj [("name", .str "a"), ("value", .str "1")]⟩ = .ok (.str "a") ∧
    DataItem.value ⟨.obj [("name", .str "a"), ("value", .str "1")]⟩ = .ok (.str "1") := by
  have h := C2_round_trip_identity props_doc_ok
    [.obj [("name", .str "g1"),
           ("data", .arr [.obj [("name", .str "a"), ("value", .str "1")]])]]
    rfl rfl
  refine ⟨h.1, ?_, h.2.2.2.2.2.1, h.2.2.2.2.2.2.1, ?_, ?_, ?_, ?_, ?_⟩
  · exact h.2.1 _ [("height", .int 10), ("spacing", .int 2)] _ rfl rfl rfl
  · exact h.2.2.2.2.2.2.2.1 0 _ rfl
  · exact h.2.2.2.2.2.2.2.2.1 _ (.str "g1") rfl
  · exact h.2.2.2.2.2.2.2.2.2.1 _
      [.obj [("name", .str "a"), ("value", .str "1")]] 0 _ rfl rfl
  · exact h.2.2.2.2.2.2.2.2.2.2.1 _ (.str "a") rfl
  · exact h.2.2.2.2.2.2.2.2.2.2.2 _ (.str "1") rfl

/-- C5: for every group fragment of a validated `Data` document, the
length reported by its `DataGroup` wrapper is the number of keys of the
group's backing record dict — always 2 (`name` and `data`) under the
schema — not the number of contained items; whenever a group's item
count differs from its record size, `len` differs from the item count. -/
theorem C5_group_len_is_record_size (gs : List Json)
    (h : validate data_schema (.arr gs) = none)
    (hwf : wfJson (.arr gs) = true) :
    ∀ g ∈ gs, ∃ kvs, g = .obj kvs ∧
      DataGroup.len ⟨g⟩ = .ok kvs.length ∧ kvs.length = 2 ∧
      ∀ items, jlookup "data" kvs = some (.arr items) →
        items.length ≠ 2 → DataGroup.len ⟨g⟩ ≠ .ok items.length := by
  intro g hg
  obtain ⟨_, hgroups⟩ := data_valid_inv h
  obtain ⟨kvs, nameStr, items, hgeq, hname, hdata, hlen, hkeys, _⟩ :=
    group_valid_inv (hgroups g hg)
  subst hgeq
  have hnodup : (keysOf kvs).Nodup := wfJson_obj (wfJson_arr_mem hwf hg)
  have hmemname : "name" ∈ keysOf kvs :=
    List.mem_map.mpr ⟨_, jlookup_mem hname, rfl⟩
  have hmemdata : "data" ∈ keysOf kvs :=
    List.mem_map.mpr ⟨_, jlookup_mem hdata, rfl⟩
  have hsub : ∀ x ∈ keysOf kvs, x = "name" ∨ x = "data" := by
    intro x hx
    obtain ⟨kv, hkv, hxeq⟩ := List.mem_map.mp hx
    subst hxeq
    exact hkeys kv hkv
  have hcard : (keysOf kvs).toFinset = ({"name", "data"} : Finset String) := by
    apply Finset.Subset.antisymm
    · intro x hx
      rw [List.mem_toFinset] at hx
      rcases hsub x hx with h1 | h1 <;> simp [h1]
    · intro x hx
      simp only [Finset.mem_insert, Finset.mem_singleton] at hx
      rcases hx with h1 | h2
      · subst h1; exact List.mem_toFinset.mpr hmemname
      · subst h2; exact List.mem_toFinset.mpr hmemdata
  have hlen2 : (keysOf kvs).length = 2 := by
    have hc := List.toFinset_card_of_nodup hnodup
    rw [hcard] at hc
    have : ({"name", "data"} : Finset String).card = 2 := by
      rw [Finset.card_insert_of_not_mem (by simp), Finset.card_singleton]
    omega
  have hklen : kvs.length = 2 := by simpa [keysOf] using hlen2
  refine ⟨kvs, rfl, rfl, hklen, ?_⟩
  intro items2 hlk hne hcontra
  have h2 : kvs.length = items2.length := by
    have := Except.ok.inj ((rfl :
      DataGroup.len ⟨Json.obj kvs⟩ = .ok kvs.length).symm.trans hcontra)
    exact this
  omega

/-- Witness for C5 on the one-group scenario document: the group holds 1
item but its reported length is 2. -/
theorem C5_group_len_is_record_size_witness :
    ∃ kvs,
      (Json.obj [("name", .str "g1"),
        ("data", .arr [.obj [("name", .str "a"), ("value", .str "1")]])]) = .obj kvs ∧
      DataGroup.len ⟨.obj [("name", .str "g1"),
        ("data", .arr [.obj [("name", .str "a"), ("value", .str "1")]])]⟩ =
        .ok kvs.length ∧
      kvs.length = 2 ∧
      ∀ items, jlookup "data" kvs = some (.arr items) →
        items.length ≠ 2 →
        DataGroup.len ⟨.obj [("name", .str "g1"),
          ("data", .arr [.obj [("name", .str "a"), ("value", .str "1")]])]⟩ ≠
          .ok items.length := by
  have h := C5_group_len_is_record_size
    [.obj [("name", .str "g1"),
           ("data", .arr [.obj [("name", .str "a"), ("value", .str "1")]])]]
    rfl rfl
  exact h _ (List.mem_singleton.mpr rfl)

/-- C7: the `Data` constructor rejects an empty top-level array and any
document containing a group with an empty item array; hence every
successfully validated `Data` has length at least 1 and every group of a
validated document has at least one item. -/
theorem C7_data_nonempty (gs : List Json)
    (h : validate data_schema (.arr gs) = none) :
    Data.init (.arr []) = .error "[] is too short (path: [])" ∧
    1 ≤ gs.length ∧
    Data.len ⟨.arr gs⟩ = .ok gs.length ∧
    (∀ g ∈ gs, ∃ kvs items, g = .obj kvs ∧
      jlookup "data" kvs = some (.arr items) ∧ 1 ≤ items.length) ∧
    (∀ (gs2 : List Json) (i : Nat) (kvs : List (String × Json)),
      gs2[i]? = some (.obj kvs) → jlookup "data" kvs = some (.arr []) →
      ∃ msg, Data.init (.arr gs2) = .error msg) := by
  refine ⟨rfl, (data_valid_inv h).1, rfl, ?_, ?_⟩
  · intro g hg
    obtain ⟨kvs, nameStr, items, hgeq, _, hdata, hlen, _, _⟩ :=
      group_valid_inv ((data_valid_inv h).2 g hg)
    exact ⟨kvs, items, hgeq, hdata, hlen⟩
  · intro gs2 i kvs hget hdata
    cases hv : validate data_schema (.arr gs2) with
    | some e =>
      refine ⟨e.message ++ " (path: " ++ renderPath e.path ++ ")", ?_⟩
      simp [Data.init, parse_json_error_of_validate hv, Except.map]
    | none =>
      exfalso
      obtain ⟨kvs2, _, items, hgeq, _, hdata2, hlen, _, _⟩ :=
        group_valid_inv ((data_valid_inv hv).2 _ (List.getElem?_mem hget))
      injection hgeq with hkv
      subst hkv
      rw [hdata] at hdata2
      injection hdata2 with harr
      injection harr with hitems
      subst hitems
      simp at hlen

/-- Witness for C7: the one-group scenario document validates, and the
document whose single group has an empty item array is rejected. -/
theorem C7_data_nonempty_witness :
    Data.init (.arr []) = .error "[] is too short (path: [])" ∧
    Data.len ⟨data_doc_g1⟩ = .ok 1 ∧
    (∃ msg, Data.init data_doc_empty_items = .error msg) := by
  have h := C7_data_nonempty
    [.obj [("name", .str "g1"),
           ("data", .arr [.obj [("name", .str "a"), ("value", .str "1")]])]]
    rfl
  refine ⟨h.1, h.2.2.1, ?_⟩
  exact h.2.2.2.2 [.obj [("name", .str "g"), ("data", .arr [])]] 0
    [("name", .str "g"), ("data", .arr [])] rfl rfl

/-- C4: for each of the three schemas (`Properties`, `Messages`, `Data`),
any document obtained from a schema-valid document by adding one key
the schema does not declare, at any level where the schema declares
`properties`, fails validation and is rejected by the corresponding view
constructor, even though all required keys are still present and valid. -/
theorem C4_closed_object_enforcement (s : Schema)
    (hs : s = props_schema ∨ s = msgs_schema ∨ s = data_schema)
    (d : Json) (p : List Step) (props : List (String × Schema))
    (req : List String) (kvs : List (String × Json)) (k : String) (v : Json)
    (hvalid : validate s d = none)
    (hschema : schemaAt s p = some (.object props req))
    (hdoc : getAt d p = some (.obj kvs))
    (hundeclared : jlookup k props = none)
    (hfresh : jlookup k kvs = none) :
    (∃ e, validate s (setAt d p (.obj (kvs ++ [(k, v)]))) = some e) ∧
    (∃ msg, parse_json (setAt d p (.obj (kvs ++ [(k, v)]))) s = .error msg) ∧
    (s = props_schema →
      ∃ msg, Properties.init (setAt d p (.obj (kvs ++ [(k, v)]))) = .error msg) ∧
    (s = msgs_schema →
      ∃ msg, Messages.init (setAt d p (.obj (kvs ++ [(k, v)]))) = .error msg) ∧
    (s = data_schema →
      ∃ msg, Data.init (setAt d p (.obj (kvs ++ [(k, v)]))) = .error msg) := by
  obtain ⟨e, he⟩ :=
    insert_undeclared_key_fails p s d props req kvs k v
      hvalid hschema hdoc hundeclared hfresh
  have hpj : parse_json (setAt d p (.obj (kvs ++ [(k, v)]))) s =
      .error (e.message ++ " (path: " ++ renderPath e.path ++ ")") :=
    parse_json_error_of_validate he
  refine ⟨⟨e, he⟩, ⟨_, hpj⟩, ?_, ?_, ?_⟩
  · intro hseq
    subst hseq
    exact ⟨e.message ++ " (path: " ++ renderPath e.path ++ ")",
      by simp [Properties.init, hpj, Except.map]⟩
  · intro hseq
    subst hseq
    exact ⟨e.message ++ " (path: " ++ renderPath e.path ++ ")",
      by simp [Messages.init, hpj, Except.map]⟩
  · intro hseq
    subst hseq
    exact ⟨e.message ++ " (path: " ++ renderPath e.path ++ ")",
      by simp [Data.init, hpj, Except.map]⟩

/-- Witness for C4: adding the undeclared key `extra` inside the `rows`
object of the valid scenario document makes `Properties` reject it. -/
theorem C4_closed_object_enforcement_witness :
    (∃ e, validate props_schema
      (setAt props_doc_ok [.key "rows"]
        (.obj ([("height", .int 10), ("spacing", .int 2)] ++ [("extra", .int 1)]))) =
      some e) ∧
    (∃ msg, Properties.init
      (setAt props_doc_ok [.key "rows"]
        (.obj ([("height", .int 10), ("spacing", .int 2)] ++ [("extra", .int 1)]))) =
      .error msg) := by
  have h := C4_closed_object_enforcement props_schema (Or.inl rfl)
    props_doc_ok [.key "rows"]
    [("height", Schema.integer 1), ("spacing", Schema.integer 1),
     ("critical_value_size", Schema.integer 1)]
    ["height", "spacing"]
    [("height", .int 10), ("spacing", .int 2)]
    "extra" (.int 1)
    rfl rfl rfl rfl rfl
  exact ⟨h.1, h.2.2.1 rfl⟩

end Params
